import Mathlib

/-!
Shallow embedding of `src/inventory_system.py` (class `InventoryManager`).

The store `_stock_data : Dict[str, Dict[str, Any]]` is modelled as an
insertion-ordered association list from item name to `ItemRecord`.  A
record is modelled by its two documented fields (`quantity`, `tags`);
absence of a field in a loaded JSON record is `Option.none`.  JSON text
serialisation is elided: a file whose content parses to a top-level
object of the documented shape is modelled by `FileState.obj`, a file
with unparseable content by `FileState.badJson`, an unreadable file by
`FileState.ioError`, and a missing file by `FileState.absent`.  Logger
calls are modelled as returned `LogEvent` values.  All operations are
total Lean functions, mirroring that no method of the source raises an
exception to its caller on any path modelled here.
-/

/-- One inventory record, i.e. one value of `_stock_data`: the dict
`{"quantity": ..., "tags": ...}` built at line 37, or a record read from
a JSON file, in which either documented field may be absent. -/
structure ItemRecord where
  quantity : Option Int
  tags : Option (List String)
deriving DecidableEq

/-- The store `_stock_data`, as an insertion-ordered association list
(Python dicts preserve insertion order and have unique keys). -/
abbrev Store := List (String × ItemRecord)

/-- State of one file path as `load_data` (lines 52-72) distinguishes it:
missing (`filename.exists()` false), unreadable (`OSError`), unparseable
(`json.JSONDecodeError`), or readable with content parsing to a JSON
object of the documented shape. -/
inductive FileState where
  | absent
  | ioError
  | badJson
  | obj (kvs : Store)
deriving DecidableEq

/-- The file system seen through `Path`: one `FileState` per path. -/
abbrev FS := String → FileState

/-- Severity levels of the logging channel. -/
inductive LogLevel where
  | info
  | warning
  | error
deriving DecidableEq

/-- Events emitted through `self._logger`, one constructor per call site. -/
inductive LogEvent where
  | addedItem (name : String) (quantity : Int) (tags : List String)
  | negativeQuantity (name : String)
  | removedItem (name : String)
  | removeMissing (name : String)
  | fileNotFound (path : String)
  | loadedOk (path : String)
  | invalidJson (path : String)
  | readError (path : String)
  | savedOk (path : String)
  | lowStock (names : List String)
  | allStocked
deriving DecidableEq

/-- Severity of each event, matching the `info`/`warning`/`error` method
used at the corresponding call site. -/
def LogEvent.level : LogEvent → LogLevel
  | .addedItem _ _ _ => .info
  | .negativeQuantity _ => .error
  | .removedItem _ => .info
  | .removeMissing _ => .warning
  | .fileNotFound _ => .warning
  | .loadedOk _ => .info
  | .invalidJson _ => .error
  | .readError _ => .error
  | .savedOk _ => .info
  | .lowStock _ => .warning
  | .allStocked => .info

/-- Python dict assignment `d[k] = v`: replaces the value in place when
the key is present (keeping its position), otherwise appends the new
entry at the end. -/
def dictInsert (s : Store) (k : String) (v : ItemRecord) : Store :=
  if s.any (fun p => p.1 == k) then
    s.map (fun p => if p.1 == k then (k, v) else p)
  else
    s ++ [(k, v)]

/-- Python `d.get(k, default-absent)`: the first entry with key `k`. -/
def dictLookup (s : Store) (k : String) : Option ItemRecord :=
  (s.find? (fun p => p.1 == k)).map (fun p => p.2)

/-- `add_item` (lines 24-38): rejects a negative quantity with an error
log and no store change; otherwise sets the record for `item_name` to
`{"quantity": quantity, "tags": tags}` and logs at info level.  The
Python defaults (`tags=None` meaning `[]` via `tags = tags or []`,
`quantity=10`) are supplied explicitly by callers of the model. -/
def add_item (s : Store) (item_name : String) (tags : List String)
    (quantity : Int) : Store × List LogEvent :=
  if quantity < 0 then
    (s, [LogEvent.negativeQuantity item_name])
  else
    (dictInsert s item_name ⟨some quantity, some tags⟩,
      [LogEvent.addedItem item_name quantity tags])

/-- `remove_item` (lines 40-46): `del` of the key when present (info
log), else the `KeyError` handler logs a warning and changes nothing. -/
def remove_item (s : Store) (item_name : String) : Store × List LogEvent :=
  if s.any (fun p => p.1 == item_name) then
    (s.filter (fun p => !(p.1 == item_name)), [LogEvent.removedItem item_name])
  else
    (s, [LogEvent.removeMissing item_name])

/-- `get_quantity` (lines 48-50):
`self._stock_data.get(item_name, {}).get("quantity", 0)` — 0 when the
name is absent or the record has no `quantity` field. -/
def get_quantity (s : Store) (item_name : String) : Int :=
  match dictLookup s item_name with
  | some r => r.quantity.getD 0
  | none => 0

/-- `load_data` (lines 52-72): missing file logs a warning and clears
the store; `json.JSONDecodeError` or `OSError` logs an error and clears
the store; on success the store is replaced wholesale by the parsed
object (the prior store argument is discarded on every branch). -/
def load_data (_s : Store) (fs : FS) (filename : String) :
    Store × List LogEvent :=
  match fs filename with
  | FileState.absent => ([], [LogEvent.fileNotFound filename])
  | FileState.ioError => ([], [LogEvent.readError filename])
  | FileState.badJson => ([], [LogEvent.invalidJson filename])
  | FileState.obj kvs => (kvs, [LogEvent.loadedOk filename])

/-- `save_data` (lines 74-85): writes the whole store to `filename` as a
JSON object and logs at info level.  A write-side `OSError` is an
environmental event no claim depends on; the model takes the successful
branch, leaving every other path unchanged. -/
def save_data (s : Store) (fs : FS) (filename : String) :
    FS × List LogEvent :=
  (fun q => if q == filename then FileState.obj s else fs q,
    [LogEvent.savedOk filename])

/-- `check_low_items` (lines 98-109): the names of the entries whose
`details.get("quantity", 0)` is strictly below `threshold`, in store
iteration order; a warning listing them when nonempty, else an info
event.  The store is not touched. -/
def check_low_items (s : Store) (threshold : Int) :
    List String × List LogEvent :=
  let low := (s.filter (fun p => p.2.quantity.getD 0 < threshold)).map
    (fun p => p.1)
  (low, if low.isEmpty then [LogEvent.allStocked] else [LogEvent.lowStock low])

/-- Operations of the claimed invariant C2, one per public method that
runs against a store and file system. -/
inductive Op where
  | add (name : String) (tags : List String) (quantity : Int)
  | remove (name : String)
  | load (path : String)
  | save (path : String)
  | checkLow (threshold : Int)
  | report
deriving DecidableEq

/-- Effect of one operation on the pair (store, file system).
`check_low_items` and `print_data` (lines 87-96) only read and log, so
they leave the state unchanged. -/
def applyOp : Store × FS → Op → Store × FS
  | (s, fs), Op.add n tags q => ((add_item s n tags q).1, fs)
  | (s, fs), Op.remove n => ((remove_item s n).1, fs)
  | (s, fs), Op.load p => ((load_data s fs p).1, fs)
  | (s, fs), Op.save p => (s, (save_data s fs p).1)
  | (s, fs), Op.checkLow _ => (s, fs)
  | (s, fs), Op.report => (s, fs)

/-- Run a sequence of operations from an initial state. -/
def runOps (st : Store × FS) (ops : List Op) : Store × FS :=
  ops.foldl applyOp st

/-- Every record of the store has a non-negative quantity (a record with
no `quantity` field reads as 0). -/
def NonNegStore (s : Store) : Prop :=
  ∀ e ∈ s, 0 ≤ e.2.quantity.getD 0

instance (s : Store) : Decidable (NonNegStore s) :=
  inferInstanceAs (Decidable (∀ e ∈ s, 0 ≤ e.2.quantity.getD 0))

/-- Every parseable object file on the file system has only non-negative
quantities. -/
def NonNegFS (fs : FS) : Prop :=
  ∀ p kvs, fs p = FileState.obj kvs → NonNegStore kvs

/-! Helper lemmas about `dictInsert` and `dictLookup`. -/

lemma find?_replaced_self (k : String) (v : ItemRecord) (s : Store)
    (h : s.any (fun p => p.1 == k) = true) :
    (s.map (fun p => if p.1 == k then (k, v) else p)).find?
      (fun p => p.1 == k) = some (k, v) := by
  induction s with
  | nil => simp at h
  | cons a t ih =>
    cases ha : (a.1 == k) with
    | true =>
      rw [List.map_cons, if_pos (by simp [ha])]
      exact List.find?_cons_of_pos _ (by simp)
    | false =>
      rw [List.any_cons, ha, Bool.false_or] at h
      rw [List.map_cons, if_neg (by simp [ha])]
      rw [List.find?_cons_of_neg _ (by simp [ha])]
      exact ih h

lemma find?_replaced_other (k k' : String) (v : ItemRecord)
    (hne : (k == k') = false) (s : Store) :
    (s.map (fun p => if p.1 == k then (k, v) else p)).find?
      (fun p => p.1 == k') = s.find? (fun p => p.1 == k') := by
  induction s with
  | nil => rfl
  | cons a t ih =>
    cases ha : (a.1 == k) with
    | false =>
      rw [List.map_cons, if_neg (by simp [ha])]
      cases ha' : (a.1 == k') with
      | false =>
        rw [List.find?_cons_of_neg _ (by simp [ha']),
            List.find?_cons_of_neg _ (by simp [ha']), ih]
      | true =>
        rw [List.find?_cons_of_pos _ (by simp [ha']),
            List.find?_cons_of_pos _ (by simp [ha'])]
    | true =>
      have hak : a.1 = k := eq_of_beq ha
      have ha' : (a.1 == k') = false := by rw [hak]; exact hne
      rw [List.map_cons, if_pos (by simp [ha])]
      rw [List.find?_cons_of_neg _ (by simp [hne]),
          List.find?_cons_of_neg _ (by simp [ha']), ih]

lemma dictLookup_dictInsert_self (s : Store) (k : String) (v : ItemRecord) :
    dictLookup (dictInsert s k v) k = some v := by
  unfold dictInsert dictLookup
  cases h : s.any (fun p => p.1 == k) with
  | true =>
    rw [if_pos rfl, find?_replaced_self k v s h, Option.map_some']
  | false =>
    rw [if_neg (by simp), List.find?_append]
    have hnone : s.find? (fun p => p.1 == k) = none := by
      rw [List.find?_eq_none]
      intro x hx
      exact (List.any_eq_false.mp h) x hx
    rw [hnone]
    simp

lemma dictLookup_dictInsert_other (s : Store) (k k' : String)
    (v : ItemRecord) (hne : k ≠ k') :
    dictLookup (dictInsert s k v) k' = dictLookup s k' := by
  have hb : (k == k') = false := by
    simpa using hne
  unfold dictInsert dictLookup
  cases h : s.any (fun p => p.1 == k) with
  | true =>
    rw [if_pos rfl, find?_replaced_other k k' v hb s]
  | false =>
    rw [if_neg (by simp), List.find?_append]
    cases hs : s.find? (fun p => p.1 == k') with
    | some x => simp
    | none => simp [hb]

/-! Claim theorems: functional correctness of the query and mutation
operations. -/

/-- Claim C3: for every non-negative quantity q, name n and tags
sequence, `add_item` followed by `get_quantity` on the same name
returns q. -/
theorem add_then_get_quantity (s : Store) (n : String) (tags : List String)
    (q : Int) (hq : 0 ≤ q) :
    get_quantity (add_item s n tags q).1 n = q := by
  have hnot : ¬ q < 0 := not_lt.mpr hq
  simp only [add_item, if_neg hnot]
  unfold get_quantity
  rw [dictLookup_dictInsert_self]
  rfl

/-- Witness for C3 at a concrete input. -/
theorem add_then_get_quantity_witness :
    get_quantity (add_item [] "Pen" ["stationery"] 15).1 "Pen" = 15 :=
  add_then_get_quantity [] "Pen" ["stationery"] 15 (by decide)

/-- Claim C4: a negative quantity makes `add_item` return the store
unchanged, with one error-level log event as the only effect; the call
returns normally to the caller. -/
theorem add_negative_rejected (s : Store) (n : String) (tags : List String)
    (q : Int) (hq : q < 0) :
    add_item s n tags q = (s, [LogEvent.negativeQuantity n]) ∧
      (LogEvent.negativeQuantity n).level = LogLevel.error := by
  constructor
  · unfold add_item
    rw [if_pos hq]
  · rfl

/-- Witness for C4 at a concrete input. -/
theorem add_negative_rejected_witness :
    add_item [("Pen", ⟨some 1, some []⟩)] "Pen" [] (-1) =
        ([("Pen", ⟨some 1, some []⟩)], [LogEvent.negativeQuantity "Pen"]) ∧
      (LogEvent.negativeQuantity "Pen").level = LogLevel.error :=
  add_negative_rejected [("Pen", ⟨some 1, some []⟩)] "Pen" [] (-1) (by decide)

/-- Claim C8: `get_quantity` returns the stored quantity when the name is
present (with a stored quantity field) and 0 when the name is absent; it
is a total pure function of the store, so it neither fails nor mutates
anything. -/
theorem get_quantity_spec :
    (∀ (s : Store) (n : String) (r : ItemRecord) (q : Int),
        dictLookup s n = some r → r.quantity = some q →
        get_quantity s n = q) ∧
      (∀ (s : Store) (n : String),
        dictLookup s n = none → get_quantity s n = 0) := by
  constructor
  · intro s n r q hr hq
    unfold get_quantity
    rw [hr]
    show r.quantity.getD 0 = q
    rw [hq]
    rfl
  · intro s n h
    unfold get_quantity
    rw [h]

/-- Witness for C8 at concrete inputs. -/
theorem get_quantity_spec_witness :
    get_quantity [("Pen", ⟨some 15, some []⟩)] "Pen" = 15 ∧
      get_quantity [("Pen", ⟨some 15, some []⟩)] "Notebook" = 0 :=
  ⟨get_quantity_spec.1 [("Pen", ⟨some 15, some []⟩)] "Pen"
      ⟨some 15, some []⟩ 15 (by decide) rfl,
    get_quantity_spec.2 [("Pen", ⟨some 15, some []⟩)] "Notebook" (by decide)⟩

/-- Claim C7: removing then querying a name gives 0, whether or not the
name was present; removing an absent name leaves the store unchanged and
its only effect is one warning-level log event. -/
theorem remove_then_get_zero :
    (∀ (s : Store) (n : String), get_quantity (remove_item s n).1 n = 0) ∧
      (∀ (s : Store) (n : String), s.any (fun p => p.1 == n) = false →
        remove_item s n = (s, [LogEvent.removeMissing n]) ∧
          (LogEvent.removeMissing n).level = LogLevel.warning) := by
  constructor
  · intro s n
    unfold remove_item
    cases h : s.any (fun p => p.1 == n) with
    | true =>
      rw [if_pos rfl]
      unfold get_quantity dictLookup
      have hnone : (List.find? (fun p => p.1 == n)
          (s.filter fun p => !(p.1 == n))) = none := by
        rw [List.find?_eq_none]
        intro x hx
        have hp := (List.mem_filter.mp hx).2
        simp only [Bool.not_eq_eq_eq_not, Bool.not_true] at hp
        simp [hp]
      rw [hnone]
      rfl
    | false =>
      rw [if_neg (by simp)]
      unfold get_quantity dictLookup
      have hnone : s.find? (fun p => p.1 == n) = none := by
        rw [List.find?_eq_none]
        intro x hx
        exact List.any_eq_false.mp h x hx
      rw [hnone]
      rfl
  · intro s n h
    unfold remove_item
    rw [if_neg (by simp [h])]
    exact ⟨rfl, rfl⟩

/-- Witness for C7 at concrete inputs. -/
theorem remove_then_get_zero_witness :
    get_quantity (remove_item [("Pen", ⟨some 15, some []⟩)] "Pen").1 "Pen"
        = 0 ∧
      remove_item [] "Pencil" = ([], [LogEvent.removeMissing "Pencil"]) ∧
        (LogEvent.removeMissing "Pencil").level = LogLevel.warning :=
  ⟨remove_then_get_zero.1 [("Pen", ⟨some 15, some []⟩)] "Pen",
    remove_then_get_zero.2 [] "Pencil" (by decide)⟩

/-- Claim C9: adding under a name that is already a key replaces its
record entirely (new quantity and new tags) and leaves the lookup of
every other name unchanged. -/
theorem add_overwrites_existing (s : Store) (n : String)
    (rOld : ItemRecord) (tags : List String) (q : Int)
    (_hpresent : dictLookup s n = some rOld) (hq : 0 ≤ q) :
    dictLookup (add_item s n tags q).1 n =
        some { quantity := some q, tags := some tags } ∧
      ∀ k, k ≠ n → dictLookup (add_item s n tags q).1 k = dictLookup s k := by
  have hnot : ¬ q < 0 := not_lt.mpr hq
  constructor
  · simp only [add_item, if_neg hnot]
    exact dictLookup_dictInsert_self s n _
  · intro k hk
    simp only [add_item, if_neg hnot]
    exact dictLookup_dictInsert_other s n k _ (Ne.symm hk)

/-- Witness for C9 at a concrete input. -/
theorem add_overwrites_existing_witness :
    dictLookup (add_item [("Pen", ⟨some 1, some ["old"]⟩),
        ("Ink", ⟨some 2, some []⟩)] "Pen" ["new"] 9).1 "Pen" =
        some { quantity := some 9, tags := some ["new"] } ∧
      dictLookup (add_item [("Pen", ⟨some 1, some ["old"]⟩),
          ("Ink", ⟨some 2, some []⟩)] "Pen" ["new"] 9).1 "Ink" =
        dictLookup [("Pen", ⟨some 1, some ["old"]⟩),
          ("Ink", ⟨some 2, some []⟩)] "Ink" := by
  have h := add_overwrites_existing
    [("Pen", ⟨some 1, some ["old"]⟩), ("Ink", ⟨some 2, some []⟩)]
    "Pen" ⟨some 1, some ["old"]⟩ ["new"] 9 (by decide) (by decide)
  exact ⟨h.1, h.2 "Ink" (by decide)⟩

/-- Claim C10: a stored record with no `quantity` field reads as
quantity 0 in `get_quantity` without failing, and `check_low_items`
counts it as 0, so its name is flagged for every positive threshold. -/
theorem missing_quantity_defaults_zero :
    (∀ (s : Store) (n : String) (r : ItemRecord),
        dictLookup s n = some r → r.quantity = none →
        get_quantity s n = 0) ∧
      (∀ (s : Store) (t : Int) (n : String) (r : ItemRecord),
        (n, r) ∈ s → r.quantity = none → 0 < t →
        n ∈ (check_low_items s t).1) := by
  constructor
  · intro s n r hr hq
    unfold get_quantity
    rw [hr]
    show r.quantity.getD 0 = 0
    rw [hq]
    rfl
  · intro s t n r hmem hq ht
    simp only [check_low_items]
    refine List.mem_map.mpr ⟨(n, r), List.mem_filter.mpr ⟨hmem, ?_⟩, rfl⟩
    simp [hq, ht]

/-- Witness for C10 at a concrete input. -/
theorem missing_quantity_defaults_zero_witness :
    get_quantity [("Ink", ⟨none, some []⟩)] "Ink" = 0 ∧
      "Ink" ∈ (check_low_items [("Ink", ⟨none, some []⟩)] 5).1 :=
  ⟨missing_quantity_defaults_zero.1 [("Ink", ⟨none, some []⟩)] "Ink"
      ⟨none, some []⟩ (by decide) rfl,
    missing_quantity_defaults_zero.2 [("Ink", ⟨none, some []⟩)] 5 "Ink"
      ⟨none, some []⟩ (by decide) rfl (by decide)⟩

/-! Claim theorems: persistence and the low-stock query. -/

/-- Claim C1: saving any store and then loading the same path into any
store (fresh or not) reproduces exactly the saved store: the same keys,
and for each key the same quantity and the same tags sequence. -/
theorem save_then_load_roundtrip (s sPrev : Store) (fs : FS) (p : String) :
    (load_data sPrev (save_data s fs p).1 p).1 = s := by
  unfold load_data save_data
  simp

/-- Claim C5: `load_data` returns normally on every file state: a
missing, unreadable, or unparseable file resets the store to empty with
one diagnostic event, and a successful parse replaces the entire store
with the file's contents, with no merge of the prior contents. -/
theorem load_never_raises (s : Store) (fs : FS) (p : String) :
    (fs p = FileState.absent →
        load_data s fs p = ([], [LogEvent.fileNotFound p])) ∧
      (fs p = FileState.ioError →
        load_data s fs p = ([], [LogEvent.readError p])) ∧
      (fs p = FileState.badJson →
        load_data s fs p = ([], [LogEvent.invalidJson p])) ∧
      (∀ kvs, fs p = FileState.obj kvs →
        load_data s fs p = (kvs, [LogEvent.loadedOk p])) := by
  refine ⟨fun h => ?_, fun h => ?_, fun h => ?_, fun kvs h => ?_⟩ <;>
    simp [load_data, h]

/-- Witness for C5: all four file states at concrete inputs. -/
theorem load_never_raises_witness :
    load_data [("Pen", ⟨some 1, some []⟩)] (fun _ => FileState.absent)
        "stock.json" = ([], [LogEvent.fileNotFound "stock.json"]) ∧
      load_data [] (fun _ => FileState.ioError) "stock.json" =
        ([], [LogEvent.readError "stock.json"]) ∧
      load_data [] (fun _ => FileState.badJson) "stock.json" =
        ([], [LogEvent.invalidJson "stock.json"]) ∧
      load_data [] (fun _ => FileState.obj [("Ink", ⟨some 2, some []⟩)])
        "stock.json" =
        ([("Ink", ⟨some 2, some []⟩)], [LogEvent.loadedOk "stock.json"]) :=
  ⟨(load_never_raises _ _ _).1 rfl,
    (load_never_raises _ _ _).2.1 rfl,
    (load_never_raises _ _ _).2.2.1 rfl,
    (load_never_raises _ _ _).2.2.2 _ rfl⟩

/-- Claim C6: `check_low_items` returns exactly the names whose stored
quantity (read as 0 when the field is absent) is strictly below the
threshold, leaves the store and file system untouched, and on the store
Pen:15, Notebook:7 with threshold 8 it returns exactly ["Notebook"]. -/
theorem check_low_items_spec :
    (∀ (s : Store) (t : Int) (n : String),
        n ∈ (check_low_items s t).1 ↔
          ∃ r, (n, r) ∈ s ∧ r.quantity.getD 0 < t) ∧
      (∀ (s : Store) (fs : FS) (t : Int),
        applyOp (s, fs) (Op.checkLow t) = (s, fs)) ∧
      (check_low_items [("Pen", ⟨some 15, some ["stationery"]⟩),
          ("Notebook", ⟨some 7, some ["stationery"]⟩)] 8).1 = ["Notebook"] := by
  refine ⟨?_, fun s fs t => rfl, by decide⟩
  intro s t n
  simp only [check_low_items]
  constructor
  · intro hmem
    obtain ⟨p, hp, hname⟩ := List.mem_map.mp hmem
    obtain ⟨hps, hpred⟩ := List.mem_filter.mp hp
    subst hname
    exact ⟨p.2, hps, of_decide_eq_true hpred⟩
  · rintro ⟨r, hrs, hrt⟩
    exact List.mem_map.mpr
      ⟨(n, r), List.mem_filter.mpr ⟨hrs, decide_eq_true hrt⟩, rfl⟩

/-! Claim C2: the non-negativity invariant across operation sequences. -/

lemma nonNeg_dictInsert (s : Store) (k : String) (v : ItemRecord)
    (hs : NonNegStore s) (hv : 0 ≤ v.quantity.getD 0) :
    NonNegStore (dictInsert s k v) := by
  intro e he
  unfold dictInsert at he
  by_cases h : s.any (fun p => p.1 == k) = true
  · rw [if_pos h] at he
    obtain ⟨a, ha, hae⟩ := List.mem_map.mp he
    by_cases hak : (a.1 == k) = true
    · rw [← hae, if_pos hak]
      exact hv
    · rw [← hae, if_neg hak]
      exact hs a ha
  · rw [if_neg h] at he
    rcases List.mem_append.mp he with h1 | h2
    · exact hs e h1
    · have : e = (k, v) := List.mem_singleton.mp h2
      subst this
      exact hv

lemma nonNeg_applyOp (st : Store × FS) (op : Op)
    (hs : NonNegStore st.1) (hfs : NonNegFS st.2) :
    NonNegStore (applyOp st op).1 ∧ NonNegFS (applyOp st op).2 := by
  obtain ⟨s, fs⟩ := st
  cases op with
  | add n tags q =>
    refine ⟨?_, hfs⟩
    show NonNegStore (add_item s n tags q).1
    unfold add_item
    by_cases hq : q < 0
    · rw [if_pos hq]
      exact hs
    · rw [if_neg hq]
      exact nonNeg_dictInsert s n _ hs (not_lt.mp hq)
  | remove n =>
    refine ⟨?_, hfs⟩
    show NonNegStore (remove_item s n).1
    unfold remove_item
    by_cases h : s.any (fun p => p.1 == n) = true
    · rw [if_pos h]
      intro e he
      exact hs e (List.mem_filter.mp he).1
    · rw [if_neg h]
      exact hs
  | load p =>
    refine ⟨?_, hfs⟩
    show NonNegStore (load_data s fs p).1
    unfold load_data
    cases hf : fs p with
    | absent => intro e he; simp at he
    | ioError => intro e he; simp at he
    | badJson => intro e he; simp at he
    | obj kvs => exact hfs p kvs hf
  | save p =>
    refine ⟨hs, ?_⟩
    show NonNegFS (save_data s fs p).1
    intro q kvs hq
    have hq' : (if q == p then FileState.obj s else fs q) =
        FileState.obj kvs := hq
    by_cases h : (q == p) = true
    · rw [if_pos h] at hq'
      cases hq'
      exact hs
    · rw [if_neg h] at hq'
      exact hfs q kvs hq'
  | checkLow t => exact ⟨hs, hfs⟩
  | report => exact ⟨hs, hfs⟩

/-- Claim C2, amended: starting from a store whose quantities are all
non-negative, any sequence of operations keeps every record's quantity
non-negative, provided every parseable object file on the file system
holds only non-negative quantities.  The proviso on loaded files is
forced by the code: `load_data` installs file contents unvalidated. -/
theorem nonneg_quantity_invariant (s : Store) (fs : FS) (ops : List Op)
    (hs : NonNegStore s) (hfs : NonNegFS fs) :
    NonNegStore (runOps (s, fs) ops).1 := by
  suffices h : ∀ st : Store × FS, NonNegStore st.1 → NonNegFS st.2 →
      NonNegStore (runOps st ops).1 ∧ NonNegFS (runOps st ops).2 by
    exact (h (s, fs) hs hfs).1
  induction ops with
  | nil => exact fun st h1 h2 => ⟨h1, h2⟩
  | cons op rest ih =>
    intro st h1 h2
    have hstep := nonNeg_applyOp st op h1 h2
    exact ih (applyOp st op) hstep.1 hstep.2

/-- Counterexample to claim C2 as stated: `load_data` does not validate
quantities, so loading a parseable file that stores quantity -1 puts a
negative quantity into the store. -/
theorem nonneg_quantity_invariant_cex :
    ¬ NonNegStore (runOps ([],
        fun _ => FileState.obj [("X", ⟨some (-1), some []⟩)])
        [Op.load "stock.json"]).1 := by
  decide

/-- Witness for the amended C2 at a concrete input. -/
theorem nonneg_quantity_invariant_witness :
    NonNegStore (runOps ([("Pen", ⟨some 15, some []⟩)],
        fun _ => FileState.absent)
        [Op.add "Notebook" [] 7, Op.remove "Pen", Op.save "stock.json",
          Op.load "stock.json", Op.checkLow 8, Op.report]).1 :=
  nonneg_quantity_invariant [("Pen", ⟨some 15, some []⟩)]
    (fun _ => FileState.absent)
    [Op.add "Notebook" [] 7, Op.remove "Pen", Op.save "stock.json",
      Op.load "stock.json", Op.checkLow 8, Op.report]
    (by decide)
    (fun p kvs h => FileState.noConfusion h)
